import Mathlib

/-
Verification development for the Distill repository.

Python strings are modelled as lists of unicode characters (`Str`), so that
slicing, length and concatenation coincide with Python code-point semantics.
Only the ASCII fragment of Python case folding and character classes is
modelled; all concrete inputs below are ASCII.  External services (Azure
layout analysis, the Anthropic reasoning service, the filesystem) are
modelled as explicit oracle parameters, as the spec treats them as black
boxes.
-/

namespace Distill

/-- Python strings, modelled as lists of characters. -/
abbrev Str := List Char

/-- Embed a Lean string literal as a `Str`. -/
def str (s : String) : Str := s.toList

/-- Characters treated as whitespace by Python `str.strip` / `str.split`
(ASCII fragment). -/
def pyIsSpace (c : Char) : Bool :=
  c == ' ' || c == '\t' || c == '\n' || c == '\x0d' || c == '\x0b' || c == '\x0c'

/-- Python `str.strip()` with no arguments: remove leading and trailing
whitespace. -/
def pyStrip (l : Str) : Str :=
  ((l.dropWhile pyIsSpace).reverse.dropWhile pyIsSpace).reverse

/-- Python `str.lower()` (ASCII fragment). -/
def pyLower (l : Str) : Str := l.map Char.toLower

/-- Split at every character satisfying `p` (one split per character). -/
def splitEachAux (p : Char → Bool) : List Char → List Char → List (List Char)
  | [], cur => [cur.reverse]
  | c :: cs, cur =>
    if p c then cur.reverse :: splitEachAux p cs []
    else splitEachAux p cs (c :: cur)

def splitEach (p : Char → Bool) (l : List Char) : List (List Char) :=
  splitEachAux p l []

/-- Drop empty pieces that sit strictly between the first and the last piece;
turns per-character splitting into splitting on maximal separator runs. -/
def dropMidEmpties : List (List Char) → List (List Char)
  | [] => []
  | [y] => [y]
  | y :: rest => if y = [] then dropMidEmpties rest else y :: dropMidEmpties rest

/-- Python `re.split(pat_plus, s)` where `pat_plus` matches maximal runs of
characters satisfying `p`: pieces between runs, keeping empty pieces at the
two ends. -/
def pyReSplit (p : Char → Bool) (l : Str) : List Str :=
  match splitEach p l with
  | [] => []
  | x :: rest => x :: dropMidEmpties rest

/-- Python `str.split()` with no arguments: split on whitespace runs,
discarding empty pieces. -/
def pySplitWs (l : Str) : List Str :=
  (splitEach pyIsSpace l).filter (fun t => !t.isEmpty)

/-- Word characters of the regex class `\w` (ASCII fragment). -/
def pyIsWordChar (c : Char) : Bool := c.isAlphanum || c == '_'

/-- `needle.isPrefixOf hay` on character lists. -/
def strPrefixOf : Str → Str → Bool
  | [], _ => true
  | _ :: _, [] => false
  | a :: as, b :: bs => a == b && strPrefixOf as bs

/-- Python substring containment `needle in hay`. -/
def containsSub (hay needle : Str) : Bool :=
  match hay with
  | [] => needle.isEmpty
  | _ :: rest => strPrefixOf needle hay || containsSub rest needle

/-! ## `distill/tools/digest.py` — content budgeting (`prepare_content`) -/

/-- `PRIORITY_SECTIONS` from `digest.py`. -/
def PRIORITY_SECTIONS : List Str :=
  [str "Abstract", str "Introduction", str "Methods", str "Methodology",
   str "Method", str "Approach", str "Model", str "Results", str "Experiments",
   str "Evaluation", str "Discussion", str "Conclusion", str "Conclusions",
   str "Related Work", str "Background"]

/-- `_fuzzy_match_section` from `digest.py`: strip a leading run of digits,
dots, colons and whitespace, strip, lower, then test substring containment
of the lowered priority keyword. -/
def fuzzy_match_section (section_name priority : Str) : Bool :=
  let cleaned := pyLower (pyStrip (section_name.dropWhile
    (fun c => c.isDigit || c == '.' || c == ':' || pyIsSpace c)))
  containsSub cleaned (pyLower priority)

/-- The marker appended when a section body is truncated mid-pass. -/
def truncatedMarker : Str := str "\n\n[Truncated]\n\n"

/-- The marker appended when the flat fallback text is truncated. -/
def contentTruncMarker : Str := str "\n\n[Content truncated due to length]"

/-- Section header rendering `f"## \x7bname\x7d\n\n"` from `prepare_content`. -/
def mkHeader (name : Str) : Str := str "## " ++ name ++ str "\n\n"

/-- Accumulator of `prepare_content`: emitted parts, the `used` set, and the
running character count. -/
structure BudgetAcc where
  parts : List Str
  used : List Str
  char_count : Nat
deriving DecidableEq

/-- Inner loop of the first pass of `prepare_content` for one priority
keyword: scan the sections in order; matched sections are emitted whole while
they fit; a section that would overflow is truncated to the remaining budget
(when more than 200 characters remain after a 50-character reserve) and the
scan for this priority stops. -/
def firstPassInner (max_chars : Nat) (priority : Str) :
    List (Str × Str) → BudgetAcc → BudgetAcc
  | [], acc => acc
  | (name, text) :: rest, acc =>
    if name ∈ acc.used then
      firstPassInner max_chars priority rest acc
    else if fuzzy_match_section name priority then
      let header := mkHeader name
      let entry := header ++ pyStrip text ++ str "\n\n"
      if max_chars < acc.char_count + entry.length then
        let remaining : Int :=
          (max_chars : Int) - (acc.char_count : Int) - (header.length : Int) - 50
        if 200 < remaining then
          let entry2 := header ++ pyStrip (text.take remaining.toNat) ++ truncatedMarker
          { acc with parts := acc.parts ++ [entry2],
                     char_count := acc.char_count + entry2.length }
        else
          acc
      else
        firstPassInner max_chars priority rest
          { parts := acc.parts ++ [entry], used := acc.used ++ [name],
            char_count := acc.char_count + entry.length }
    else
      firstPassInner max_chars priority rest acc

/-- First pass of `prepare_content`: fold `firstPassInner` over the priority
keywords. -/
def firstPass (max_chars : Nat) (real_sections : List (Str × Str)) : BudgetAcc :=
  PRIORITY_SECTIONS.foldl
    (fun acc priority => firstPassInner max_chars priority real_sections acc)
    ⟨[], [], 0⟩

/-- Second pass of `prepare_content`: emit the remaining sections in input
order with the same overflow rule; a truncation or an unusable remainder ends
the pass. -/
def secondPass (max_chars : Nat) : List (Str × Str) → BudgetAcc → List Str
  | [], acc => acc.parts
  | (name, text) :: rest, acc =>
    if name ∈ acc.used then
      secondPass max_chars rest acc
    else
      let header := mkHeader name
      let entry := header ++ pyStrip text ++ str "\n\n"
      if max_chars < acc.char_count + entry.length then
        let remaining : Int :=
          (max_chars : Int) - (acc.char_count : Int) - (header.length : Int) - 50
        if 200 < remaining then
          acc.parts ++ [header ++ pyStrip (text.take remaining.toNat) ++ truncatedMarker]
        else
          acc.parts
      else
        secondPass max_chars rest
          { parts := acc.parts ++ [entry], used := acc.used ++ [name],
            char_count := acc.char_count + entry.length }

/-- The blocks emitted by the non-degenerate path of `prepare_content`, in
emission order. -/
def prepare_content_parts (sections : List (Str × Str)) (max_chars : Nat) :
    List Str :=
  let real_sections := sections.filter (fun p => decide (p.1 ≠ str "Title"))
  secondPass max_chars real_sections (firstPass max_chars real_sections)

/-- `prepare_content` from `digest.py`.  `sections` models the Python dict in
insertion order with distinct keys. -/
def prepare_content (sections : List (Str × Str)) (full_text : Str)
    (max_chars : Nat) : Str :=
  let real_sections := sections.filter (fun p => decide (p.1 ≠ str "Title"))
  if real_sections.length < 3 then
    let content := full_text.take max_chars
    if max_chars < full_text.length then content ++ contentTruncMarker else content
  else
    (prepare_content_parts sections max_chars).flatten

/-! ### Lemmas about the content budgeter -/

/-- Total character count of a list of emitted blocks. -/
def sumLen (ps : List Str) : Nat := (ps.map List.length).sum

lemma sumLen_append_one (ps : List Str) (e : Str) :
    sumLen (ps ++ [e]) = sumLen ps + e.length := by
  simp [sumLen]

lemma pyStrip_length_le (l : Str) : (pyStrip l).length ≤ l.length := by
  unfold pyStrip
  have h1 := (List.dropWhile_sublist (l := l) pyIsSpace).length_le
  have h2 := (List.dropWhile_sublist (l := (l.dropWhile pyIsSpace).reverse)
    pyIsSpace).length_le
  simp only [List.length_reverse] at *
  omega

lemma truncatedMarker_length : truncatedMarker.length = 15 := by decide

/-- Arithmetic of the truncation branch: writing a truncated entry keeps the
running count within the budget (it even leaves a 35-character margin). -/
lemma trunc_entry_le (max_chars cc : Nat) (name text : Str)
    (h : 200 < (max_chars : Int) - (cc : Int) - ((mkHeader name).length : Int) - 50) :
    cc + (mkHeader name ++
        pyStrip (text.take ((max_chars : Int) - (cc : Int) -
          ((mkHeader name).length : Int) - 50).toNat) ++ truncatedMarker).length
      ≤ max_chars := by
  have hs := pyStrip_length_le (text.take ((max_chars : Int) - (cc : Int) -
    ((mkHeader name).length : Int) - 50).toNat)
  have ht := List.length_take_le ((max_chars : Int) - (cc : Int) -
    ((mkHeader name).length : Int) - 50).toNat text
  simp only [List.length_append, truncatedMarker_length] at *
  omega

lemma firstPassInner_inv (max_chars : Nat) (priority : Str) :
    ∀ (sects : List (Str × Str)) (acc : BudgetAcc),
      sumLen acc.parts = acc.char_count → acc.char_count ≤ max_chars →
      sumLen (firstPassInner max_chars priority sects acc).parts
          = (firstPassInner max_chars priority sects acc).char_count
        ∧ (firstPassInner max_chars priority sects acc).char_count ≤ max_chars
  | [], acc => by
    intro hsum hle
    exact ⟨hsum, hle⟩
  | (name, text) :: rest, acc => by
    intro hsum hle
    simp only [firstPassInner]
    split
    · exact firstPassInner_inv max_chars priority rest acc hsum hle
    · split
      · split
        · split
          · constructor
            · simp only [sumLen_append_one, hsum]
            · exact trunc_entry_le max_chars acc.char_count name text (by assumption)
          · exact ⟨hsum, hle⟩
        · refine firstPassInner_inv max_chars priority rest _ ?_ ?_
          · simp only [sumLen_append_one, hsum]
          · simp only []
            omega
      · exact firstPassInner_inv max_chars priority rest acc hsum hle

lemma firstPass_fold_inv (max_chars : Nat) (real_sections : List (Str × Str)) :
    ∀ (prs : List Str) (acc : BudgetAcc),
      sumLen acc.parts = acc.char_count → acc.char_count ≤ max_chars →
      sumLen (prs.foldl
            (fun a p => firstPassInner max_chars p real_sections a) acc).parts
          = (prs.foldl
            (fun a p => firstPassInner max_chars p real_sections a) acc).char_count
        ∧ (prs.foldl
            (fun a p => firstPassInner max_chars p real_sections a) acc).char_count
          ≤ max_chars
  | [], acc => fun h1 h2 => ⟨h1, h2⟩
  | p :: ps, acc => fun h1 h2 => by
    rw [List.foldl_cons]
    have h := firstPassInner_inv max_chars p real_sections acc h1 h2
    exact firstPass_fold_inv max_chars real_sections ps _ h.1 h.2

lemma firstPass_inv (max_chars : Nat) (real_sections : List (Str × Str)) :
    sumLen (firstPass max_chars real_sections).parts
        = (firstPass max_chars real_sections).char_count
      ∧ (firstPass max_chars real_sections).char_count ≤ max_chars := by
  unfold firstPass
  exact firstPass_fold_inv max_chars real_sections PRIORITY_SECTIONS ⟨[], [], 0⟩
    rfl (Nat.zero_le _)

lemma secondPass_le (max_chars : Nat) :
    ∀ (sects : List (Str × Str)) (acc : BudgetAcc),
      sumLen acc.parts = acc.char_count → acc.char_count ≤ max_chars →
      sumLen (secondPass max_chars sects acc) ≤ max_chars
  | [], acc => by
    intro hsum hle
    simpa [secondPass, hsum] using hle
  | (name, text) :: rest, acc => by
    intro hsum hle
    simp only [secondPass]
    split
    · exact secondPass_le max_chars rest acc hsum hle
    · split
      · split
        · rw [sumLen_append_one, hsum]
          exact trunc_entry_le max_chars acc.char_count name text (by assumption)
        · simpa [hsum] using hle
      · refine secondPass_le max_chars rest _ ?_ ?_
        · simp only [sumLen_append_one, hsum]
        · simp only []
          omega

/-- C2: for every sections mapping, fallback text and budget, the output of
`prepare_content` has length at most `max_chars` plus the length of one
truncation marker (the 35-character fallback marker; the structured path in
fact stays within `max_chars`). -/
theorem prepare_content_length_bound (sections : List (Str × Str))
    (full_text : Str) (max_chars : Nat) :
    (prepare_content sections full_text max_chars).length
      ≤ max_chars + contentTruncMarker.length := by
  by_cases hs : (sections.filter (fun p => decide (p.1 ≠ str "Title"))).length < 3
  · have ht := List.length_take_le max_chars full_text
    simp only [prepare_content]
    rw [if_pos hs]
    split
    · rw [List.length_append]
      omega
    · omega
  · simp only [prepare_content]
    rw [if_neg hs, List.length_flatten]
    have h1 := firstPass_inv max_chars
      (sections.filter (fun p => decide (p.1 ≠ str "Title")))
    have h2 := secondPass_le max_chars
      (sections.filter (fun p => decide (p.1 ≠ str "Title")))
      (firstPass max_chars (sections.filter (fun p => decide (p.1 ≠ str "Title"))))
      h1.1 h1.2
    simp only [prepare_content_parts]
    unfold sumLen at h2
    omega

/-- C5: with fewer than 3 non-`"Title"` sections, `prepare_content` returns
exactly the fallback text truncated to the budget, with the truncation marker
appended if and only if the fallback was longer than the budget, regardless
of the sections' contents. -/
theorem prepare_content_sparse (sections : List (Str × Str)) (full_text : Str)
    (max_chars : Nat)
    (h : (sections.filter (fun p => decide (p.1 ≠ str "Title"))).length < 3) :
    prepare_content sections full_text max_chars =
      (if max_chars < full_text.length
       then full_text.take max_chars ++ contentTruncMarker
       else full_text.take max_chars) := by
  unfold prepare_content
  rw [if_pos h]

theorem prepare_content_sparse_witness :
    (([(str "Title", str "t"), (str "A", str "a")]).filter
        (fun p => decide (p.1 ≠ str "Title"))).length < 3
    ∧ prepare_content [(str "Title", str "t"), (str "A", str "a")] (str "ab") 1 =
      (if 1 < (str "ab").length
       then (str "ab").take 1 ++ contentTruncMarker
       else (str "ab").take 1) :=
  ⟨by decide,
   prepare_content_sparse [(str "Title", str "t"), (str "A", str "a")]
     (str "ab") 1 (by decide)⟩

/-- The entry written by the truncation branch when the scan stands at
`char_count` emitted characters. -/
def truncEntryAt (max_chars char_count : Nat) (name text : Str) : Str :=
  mkHeader name ++
    pyStrip (text.take ((max_chars : Int) - (char_count : Int) -
      ((mkHeader name).length : Int) - 50).toNat) ++ truncatedMarker

/-- C4 (amended): once a block is truncated, the current scan stops — the
first pass emits nothing further for the current priority keyword, and a
second-pass truncation ends the output; but this does not make the truncated
entry the last block overall, since later priorities and the second pass
continue from the accumulated state (see the counterexample). -/
theorem trunc_stops_current_scan (max_chars : Nat) (priority name text : Str)
    (rest : List (Str × Str)) (acc : BudgetAcc)
    (h1 : name ∉ acc.used)
    (h2 : fuzzy_match_section name priority = true)
    (h3 : max_chars < acc.char_count +
      (mkHeader name ++ pyStrip text ++ str "\n\n").length)
    (h4 : 200 < (max_chars : Int) - (acc.char_count : Int) -
      ((mkHeader name).length : Int) - 50) :
    firstPassInner max_chars priority ((name, text) :: rest) acc =
      { acc with
          parts := acc.parts ++ [truncEntryAt max_chars acc.char_count name text],
          char_count := acc.char_count +
            (truncEntryAt max_chars acc.char_count name text).length }
    ∧ secondPass max_chars ((name, text) :: rest) acc =
      acc.parts ++ [truncEntryAt max_chars acc.char_count name text] := by
  constructor
  · simp only [firstPassInner, truncEntryAt]
    rw [if_neg h1, if_pos h2, if_pos h3, if_pos h4]
  · simp only [secondPass, truncEntryAt]
    rw [if_neg h1, if_pos h3, if_pos h4]

set_option maxRecDepth 40000 in
theorem trunc_stops_current_scan_witness :
    (str "Abstract" ∉ (⟨[], [], 0⟩ : BudgetAcc).used)
    ∧ firstPassInner 300 (str "Abstract")
        [(str "Abstract", List.replicate 300 'a'), (str "Q", str "QQQ")]
        ⟨[], [], 0⟩ =
      { (⟨[], [], 0⟩ : BudgetAcc) with
          parts := (⟨[], [], 0⟩ : BudgetAcc).parts ++
            [truncEntryAt 300 (⟨[], [], 0⟩ : BudgetAcc).char_count
              (str "Abstract") (List.replicate 300 'a')],
          char_count := (⟨[], [], 0⟩ : BudgetAcc).char_count +
            (truncEntryAt 300 (⟨[], [], 0⟩ : BudgetAcc).char_count
              (str "Abstract") (List.replicate 300 'a')).length } :=
  ⟨by decide,
   (trunc_stops_current_scan 300 (str "Abstract") (str "Abstract")
     (List.replicate 300 'a') [(str "Q", str "QQQ")] ⟨[], [], 0⟩
     (by decide) (by decide) (by decide) (by decide)).1⟩

/-- Input on which the original C4 claim fails: the "Abstract" block is
truncated by the first pass, yet the second pass then emits the blocks "Z"
and "Y" after the truncated entry. -/
def c4Sections : List (Str × Str) :=
  [(str "Z", []), (str "Y", []), (str "Abstract", List.replicate 300 'a')]

/-- The truncated "Abstract" entry emitted first on `c4Sections`. -/
def c4TruncEntry : Str :=
  str "## Abstract\n\n" ++ List.replicate 237 'a' ++ str "\n\n[Truncated]\n\n"

set_option maxRecDepth 100000 in
/-- C4 (counterexample): on `c4Sections` with budget 300, the output block
list is the truncated "Abstract" entry followed by two further blocks, so the
truncated entry is not the last block of the output. -/
theorem trunc_not_last_counterexample :
    prepare_content_parts c4Sections 300 =
      [c4TruncEntry, str "## Z\n\n\n\n", str "## Y\n\n\n\n"]
    ∧ containsSub c4TruncEntry (str "[Truncated]") = true
    ∧ (prepare_content_parts c4Sections 300).getLast? = some (str "## Y\n\n\n\n")
    ∧ str "## Y\n\n\n\n" ≠ c4TruncEntry := by
  refine ⟨by decide, by decide, ?_, by decide⟩
  decide

/-! ## `distill/tools/vault.py` — relevance filtering (`filter_vault_notes`) -/

/-- Python `s.replace("-", " ")`. -/
def pyReplaceDash (l : Str) : Str := l.map (fun c => if c == '-' then ' ' else c)

/-- The separator predicate of the regex class `\W` (ASCII fragment). -/
def pyNonWord (c : Char) : Bool := !pyIsWordChar c

/-- The keyword set of `filter_vault_notes`: tokens of each entry of
`paper_keywords` after lowering, hyphen replacement and whitespace splitting,
together with the tokens of `paper_title` split on `\W+` after lowering,
keeping only tokens of length greater than 2. -/
def build_keywords (paper_keywords : List Str) (paper_title : Str) : Finset Str :=
  let fromTags : Finset Str := paper_keywords.foldl
    (fun s kw => s ∪ (pySplitWs (pyReplaceDash (pyLower kw))).toFinset) ∅
  let fromTitle : Finset Str := ((pyReSplit pyNonWord (pyLower paper_title)).filter
    (fun w => decide (2 < w.length))).toFinset
  fromTags ∪ fromTitle

/-- Overlap score of one candidate title: the size of the intersection of its
`\W+` token set with the keyword set. -/
def title_score (keywords : Finset Str) (title : Str) : Nat :=
  ((pyReSplit pyNonWord (pyLower title)).toFinset ∩ keywords).card

/-- The sort key ordering of `filter_vault_notes`: Python
`sort(key=lambda x: (-x[0], x[1]))`, i.e. score descending, then title
ascending in lexicographic character order. -/
def keyLe (a b : Nat × Str) : Prop :=
  b.1 < a.1 ∨ (a.1 = b.1 ∧ a.2 ≤ b.2)

instance : DecidableRel keyLe := fun a b =>
  inferInstanceAs (Decidable (b.1 < a.1 ∨ (a.1 = b.1 ∧ a.2 ≤ b.2)))

instance : IsTotal (Nat × Str) keyLe where
  total a b := by
    unfold keyLe
    rcases Nat.lt_trichotomy a.1 b.1 with h | h | h
    · exact Or.inr (Or.inl h)
    · rcases le_total a.2 b.2 with h2 | h2
      · exact Or.inl (Or.inr ⟨h, h2⟩)
      · exact Or.inr (Or.inr ⟨h.symm, h2⟩)
    · exact Or.inl (Or.inl h)

instance : IsTrans (Nat × Str) keyLe where
  trans a b c hab hbc := by
    unfold keyLe at *
    rcases hab with h1 | ⟨h1, h1'⟩ <;> rcases hbc with h2 | ⟨h2, h2'⟩
    · exact Or.inl (by omega)
    · exact Or.inl (by omega)
    · exact Or.inl (by omega)
    · exact Or.inr ⟨by omega, le_trans h1' h2'⟩

instance : IsAntisymm (Nat × Str) keyLe where
  antisymm a b hab hba := by
    unfold keyLe at *
    rcases hab with h1 | ⟨h1, h1'⟩ <;> rcases hba with h2 | ⟨h2, h2'⟩ <;>
      first
        | omega
        | exact Prod.ext_iff.mpr ⟨by omega, le_antisymm h1' h2'⟩

/-- `filter_vault_notes` from `vault.py`.  Python stable-sorts by the key
`(-overlap, title)`; since two entries with equal keys are equal pairs, the
sorted list is the unique `keyLe`-sorted permutation, which `insertionSort`
also produces. -/
def filter_vault_notes (titles : List Str) (paper_keywords : List Str)
    (paper_title : Str) (max_notes : Nat) : List Str :=
  if titles.length ≤ max_notes then titles
  else
    let keywords := build_keywords paper_keywords paper_title
    let scored := titles.map (fun title => (title_score keywords title, title))
    let sorted := List.insertionSort keyLe scored
    (sorted.map Prod.snd).take max_notes

/-- C7: `filter_vault_notes` returns at most `max_notes` titles, and returns
the input unchanged whenever the input already has at most `max_notes`
entries. -/
theorem filter_vault_notes_cap (titles paper_keywords : List Str)
    (paper_title : Str) (max_notes : Nat) :
    (filter_vault_notes titles paper_keywords paper_title max_notes).length
        ≤ max_notes
    ∧ (titles.length ≤ max_notes →
        filter_vault_notes titles paper_keywords paper_title max_notes = titles) := by
  unfold filter_vault_notes
  split
  · exact ⟨by assumption, fun _ => rfl⟩
  · exact ⟨List.length_take_le _ _, fun h => absurd h (by assumption)⟩

theorem filter_vault_notes_cap_witness :
    filter_vault_notes [str "a"] [] [] 5 = [str "a"] :=
  (filter_vault_notes_cap [str "a"] [] [] 5).2 (by decide)

/-- C8: permuting a candidate list that exceeds the maximum does not change
the selection — in fact the returned list is identical, because candidates
are sorted by score descending with ascending lexicographic tie-break before
truncation. -/
theorem filter_vault_notes_perm_invariant (titles titles' paper_keywords : List Str)
    (paper_title : Str) (max_notes : Nat)
    (hp : titles.Perm titles') (hlen : max_notes < titles.length) :
    filter_vault_notes titles paper_keywords paper_title max_notes =
      filter_vault_notes titles' paper_keywords paper_title max_notes := by
  have hlen' : max_notes < titles'.length := hp.length_eq ▸ hlen
  simp only [filter_vault_notes]
  rw [if_neg (by omega), if_neg (by omega)]
  have hmap : (titles.map (fun title =>
        (title_score (build_keywords paper_keywords paper_title) title, title))).Perm
      (titles'.map (fun title =>
        (title_score (build_keywords paper_keywords paper_title) title, title))) :=
    hp.map _
  rw [List.eq_of_perm_of_sorted
    (((List.perm_insertionSort keyLe _).trans hmap).trans
      (List.perm_insertionSort keyLe _).symm)
    (List.sorted_insertionSort keyLe _) (List.sorted_insertionSort keyLe _)]

theorem filter_vault_notes_perm_invariant_witness :
    filter_vault_notes [str "b", str "a"] [] [] 1 =
      filter_vault_notes [str "a", str "b"] [] [] 1 :=
  filter_vault_notes_perm_invariant [str "b", str "a"] [str "a", str "b"] [] [] 1
    (by decide) (by decide)

/-- C9 (counterexample): the claim fails on the keyword side built from
`paper_keywords`: the length-2 token "ai" is kept, and "a.b" is kept as a
single token although it contains the non-alphanumeric separator character
dot — `paper_keywords` entries are split on whitespace and hyphens only, with
no length filter. -/
theorem build_keywords_counterexample :
    str "ai" ∈ build_keywords [str "ai"] []
    ∧ (str "ai").length ≤ 2
    ∧ str "a.b" ∈ build_keywords [str "a.b"] [] := by
  refine ⟨by decide, by decide, by decide⟩

lemma mem_foldl_union {α β : Type} [DecidableEq β] (f : α → Finset β) :
    ∀ (l : List α) (init : Finset β) (w : β),
      w ∈ l.foldl (fun s a => s ∪ f a) init ↔ w ∈ init ∨ ∃ a ∈ l, w ∈ f a
  | [], init, w => by simp
  | a :: l, init, w => by
    rw [List.foldl_cons, mem_foldl_union]
    constructor
    · rintro (h | ⟨b, hb, hw⟩)
      · rcases Finset.mem_union.mp h with h1 | h2
        · exact Or.inl h1
        · exact Or.inr ⟨a, List.mem_cons_self a l, h2⟩
      · exact Or.inr ⟨b, List.mem_cons_of_mem a hb, hw⟩
    · rintro (h | ⟨b, hb, hw⟩)
      · exact Or.inl (Finset.mem_union.mpr (Or.inl h))
      · rcases List.mem_cons.mp hb with rfl | hb2
        · exact Or.inl (Finset.mem_union.mpr (Or.inr hw))
        · exact Or.inr ⟨b, hb2, hw⟩

/-- C9 (amended): characterization of the keyword set — a token is a keyword
iff it comes from some `paper_keywords` entry by lowering, hyphen→space
replacement and whitespace splitting (with no length filter), or from the
title by lowering and splitting on non-word characters with length greater
than 2. -/
theorem build_keywords_mem (paper_keywords : List Str) (paper_title : Str)
    (w : Str) :
    w ∈ build_keywords paper_keywords paper_title ↔
      (∃ kw ∈ paper_keywords, w ∈ pySplitWs (pyReplaceDash (pyLower kw)))
      ∨ (w ∈ pyReSplit pyNonWord (pyLower paper_title) ∧ 2 < w.length) := by
  unfold build_keywords
  rw [Finset.mem_union, mem_foldl_union]
  simp [List.mem_filter]

/-! ## Data model shared by `parser.py`, `digest.py`, `gaps.py`, `agent.py` -/

/-- Exceptions that can propagate out of Python code in this codebase.
`jsonDecodeError` and `unicodeDecodeError` are both `ValueError` subclasses
in Python but distinct exception classes, so an `except json.JSONDecodeError`
clause catches the former and not the latter. -/
inductive PyExc where
  | apiError
  | valueError
  | jsonDecodeError
  | unicodeDecodeError
  | keyError (key : Str)
  | envError
  | ioError
deriving DecidableEq

/-- One figure record from `extract_figures` in `parser.py`. -/
structure Figure where
  path : Str
  caption : Option Str
  page_number : Nat
deriving DecidableEq

/-- The metadata dict produced by `extract_metadata` in `parser.py`; the
`date` and `arxiv_id` values may be `None`. -/
structure PaperMeta where
  title : Str
  authors : Str
  date : Option Str
  arxiv_id : Option Str
  source_url : Str
deriving DecidableEq

/-- The `PaperData` dataclass from `parser.py`.  `sections` models the Python
dict in insertion order. -/
structure PaperData where
  metadata : PaperMeta
  sections : List (Str × Str)
  full_text : Str
  figures : List Figure
  tables : List Str
  source : Str
deriving DecidableEq

/-- The `PaperDigest` dataclass from `digest.py`. -/
structure PaperDigest where
  title : Str
  authors : List Str
  date : Str
  venue : Str
  arxiv_id : Option Str
  tags : List Str
  key_contribution : Str
  methodology : Str
  core_results : Str
  limitations : Str
  connections : List Str
deriving DecidableEq

/-- The `ResearchGaps` dataclass from `gaps.py`. -/
structure ResearchGaps where
  open_questions : List Str
  extension_ideas : List Str
  scaling_considerations : Str
  methodological_gaps : List Str
deriving DecidableEq

/-! ## `distill/tools/linker.py` — `link_concepts` -/

/-- The parsed JSON object returned by the linker LLM call (all keys are read
with `.get` and defaults, so each is optional). -/
structure LinkerJson where
  key_contribution : Option Str
  methodology : Option Str
  core_results : Option Str
  limitations : Option Str
  linked_concepts : Option (List Str)
deriving DecidableEq

/-- `_build_user_prompt` from `linker.py`. -/
def linker_user_prompt (digest : PaperDigest) (vault_notes : List Str) : Str :=
  List.intercalate (str "\n")
    [str "Paper: " ++ digest.title,
     str "Tags: " ++ List.intercalate (str ", ") digest.tags,
     [],
     str "--- EXISTING VAULT NOTES ---",
     List.intercalate (str "\n") (vault_notes.map (fun title => str "- " ++ title)),
     [],
     str "--- DIGEST TEXT FIELDS TO LINK ---",
     [],
     str "key_contribution:",
     digest.key_contribution,
     [],
     str "methodology:",
     digest.methodology,
     [],
     str "core_results:",
     digest.core_results,
     [],
     str "limitations:",
     digest.limitations]

/-- `link_concepts` from `linker.py`.  The LLM call plus `_parse_llm_json`
is the oracle `llm`; it may fail (`anthropic.APIError`, `ValueError`), which
propagates.  On success a new digest is built that copies every field from
the input except the four linked text fields, each defaulting to the input
field when the JSON key is absent. -/
def link_concepts (llm : Str → Except PyExc LinkerJson) (digest : PaperDigest)
    (vault_notes : List Str) : Except PyExc (PaperDigest × List Str) :=
  if vault_notes = [] then
    .ok (digest, [])
  else
    match llm (linker_user_prompt digest vault_notes) with
    | .error e => .error e
    | .ok data =>
      .ok ({ digest with
              key_contribution := data.key_contribution.getD digest.key_contribution,
              methodology := data.methodology.getD digest.methodology,
              core_results := data.core_results.getD digest.core_results,
              limitations := data.limitations.getD digest.limitations },
           data.linked_concepts.getD [])

/-- C10: whenever `link_concepts` returns a digest, its `title`, `authors`,
`date`, `venue`, `arxiv_id`, `tags` and `connections` fields equal those of
the input digest — only the four analysis text fields can change. -/
theorem link_concepts_frame (llm : Str → Except PyExc LinkerJson)
    (digest : PaperDigest) (vault_notes : List Str) (d : PaperDigest)
    (cs : List Str) (hne : vault_notes ≠ [])
    (h : link_concepts llm digest vault_notes = .ok (d, cs)) :
    d.title = digest.title ∧ d.authors = digest.authors ∧ d.date = digest.date
    ∧ d.venue = digest.venue ∧ d.arxiv_id = digest.arxiv_id
    ∧ d.tags = digest.tags ∧ d.connections = digest.connections := by
  unfold link_concepts at h
  rw [if_neg hne] at h
  rcases hllm : llm (linker_user_prompt digest vault_notes) with e | data <;>
    rw [hllm] at h
  · exact absurd h (by simp)
  · rw [Except.ok.injEq, Prod.mk.injEq] at h
    rw [← h.1]
    exact ⟨rfl, rfl, rfl, rfl, rfl, rfl, rfl⟩

/-- A concrete digest used by witnesses. -/
def sampleDigest : PaperDigest :=
  { title := str "T", authors := [str "A"], date := str "2024-01",
    venue := str "ArXiv", arxiv_id := none, tags := [str "tag"],
    key_contribution := str "kc", methodology := str "m",
    core_results := str "cr", limitations := str "lim",
    connections := [str "C"] }

theorem link_concepts_frame_witness :
    (let d := ({ sampleDigest with key_contribution := str "kc2" } : PaperDigest)
     d.title = sampleDigest.title ∧ d.authors = sampleDigest.authors
     ∧ d.date = sampleDigest.date ∧ d.venue = sampleDigest.venue
     ∧ d.arxiv_id = sampleDigest.arxiv_id ∧ d.tags = sampleDigest.tags
     ∧ d.connections = sampleDigest.connections) :=
  link_concepts_frame
    (fun _ => .ok ⟨some (str "kc2"), none, none, none, none⟩)
    sampleDigest [str "n"] { sampleDigest with key_contribution := str "kc2" } []
    (by decide) (by rfl)

/-! ## `distill/agent.py` — tool dispatch (`execute_tool`) and the run loop -/

/-- JSON escaping of one character as `json.dumps` does for the ASCII
fragment (`ensure_ascii` escaping of non-ASCII characters is not modelled; no
claim inspects those). -/
def jsonEscapeChar (c : Char) : Str :=
  if c == '"' then ['\\', '"']
  else if c == '\\' then ['\\', '\\']
  else if c == '\n' then ['\\', 'n']
  else if c == '\t' then ['\\', 't']
  else if c == '\x0d' then ['\\', 'r']
  else if c == '\x08' then ['\\', 'b']
  else if c == '\x0c' then ['\\', 'f']
  else [c]

/-- A JSON string literal produced by `json.dumps`. -/
def jsonStr (s : Str) : Str := '"' :: (s.map jsonEscapeChar).flatten ++ ['"']

/-- A JSON number literal for a natural count. -/
def jsonNat (n : Nat) : Str := (toString n).toList

/-- A JSON array of string literals, with the default `", "` separator of
`json.dumps`. -/
def jsonList (xs : List Str) : Str :=
  str "[" ++ List.intercalate (str ", ") (xs.map jsonStr) ++ str "]"

/-- The global `state` dict of `agent.py`: each key is present or absent. -/
structure AgentState where
  paper : Option PaperData
  vault_notes : Option (List Str)
  digest : Option PaperDigest
  linked_concepts : Option (List Str)
  gaps : Option ResearchGaps
deriving DecidableEq

/-- The cleared state at the start of `run`. -/
def AgentState.empty : AgentState := ⟨none, none, none, none, none⟩

/-- The parameter object of one tool invocation; reading an absent required
key raises `KeyError` as in Python. -/
structure ToolInput where
  source : Option Str
  output_dir : Option Str
  vault_path : Option Str
deriving DecidableEq

/-- The external collaborators invoked by the tool handlers, as fallible
oracles: PDF parsing (`parse_paper`), vault scanning (`scan_vault`), the
digest LLM call (`digest_paper`), the linker LLM call plus JSON parsing, the
gaps LLM call (`identify_gaps`) and note rendering (`render_note`). -/
structure ExtServices where
  parse_paper : Str → Str → Except PyExc PaperData
  scan_vault : Str → Except PyExc (List Str)
  digest_paper : PaperData → Except PyExc PaperDigest
  linker_llm : Str → Except PyExc LinkerJson
  identify_gaps : PaperDigest → List (Str × Str) → Except PyExc ResearchGaps
  render_note : PaperData → PaperDigest → Option ResearchGaps → Str →
    Option (List Str) → Except PyExc Str

/-- The names of the six tools in `TOOLS` of `agent.py`. -/
def toolNames : List Str :=
  [str "parse_paper", str "scan_vault", str "digest_paper",
   str "link_concepts", str "identify_gaps", str "write_note"]

/-- The error result of `digest_paper` / `link_concepts` / `identify_gaps` /
`write_note` when `parse_paper` has not run. -/
def errMustParse : Str := str "\x7b\"error\": \"Must call parse_paper first\"\x7d"

/-- The error result when `digest_paper` has not run. -/
def errMustDigest : Str := str "\x7b\"error\": \"Must call digest_paper first\"\x7d"

/-- The error result when `scan_vault` has not run. -/
def errMustScan : Str := str "\x7b\"error\": \"Must call scan_vault first\"\x7d"

/-- The error result for an unknown tool name. -/
def unknownToolResult (name : Str) : Str :=
  str "\x7b\"error\": " ++ jsonStr (str "Unknown tool: " ++ name) ++ str "\x7d"

/-- `execute_tool` from `agent.py`.  The Python function mutates the global
`state` dict and returns a JSON string; exceptions raised by the handlers
propagate.  Modelled as a function from the state to `Except`: `.ok` carries
the new state and the returned JSON string, `.error` is an escaped
exception. -/
def execute_tool (svc : ExtServices) (name : Str) (tool_input : ToolInput)
    (st : AgentState) : Except PyExc (AgentState × Str) :=
  if name = str "parse_paper" then
    match tool_input.source with
    | none => .error (.keyError (str "source"))
    | some source =>
      match tool_input.output_dir with
      | none => .error (.keyError (str "output_dir"))
      | some output_dir =>
        match svc.parse_paper source output_dir with
        | .error e => .error e
        | .ok paper =>
          .ok ({ st with paper := some paper },
            str "\x7b\"status\": \"success\", \"title\": " ++
              jsonStr paper.metadata.title ++
            str ", \"sections\": " ++ jsonNat paper.sections.length ++
            str ", \"figures\": " ++ jsonNat paper.figures.length ++
            str ", \"tables\": " ++ jsonNat paper.tables.length ++ str "\x7d")
  else if name = str "scan_vault" then
    match tool_input.vault_path with
    | none => .error (.keyError (str "vault_path"))
    | some vault_path =>
      match svc.scan_vault vault_path with
      | .error e => .error e
      | .ok titles0 =>
        let titles :=
          match st.paper with
          | some paper =>
            if 500 < titles0.length then
              let paper_title := paper.metadata.title
              let section_keywords := paper.sections.map Prod.fst
              let pseudo_tags :=
                ((pySplitWs paper_title).filter
                  (fun w => decide (3 < w.length))).map pyLower
                ++ section_keywords
              filter_vault_notes titles0 pseudo_tags paper_title 500
            else titles0
          | none => titles0
        .ok ({ st with vault_notes := some titles },
          str "\x7b\"status\": \"success\", \"note_count\": " ++
            jsonNat titles.length ++
          str ", \"sample\": " ++ jsonList (titles.take 10) ++ str "\x7d")
  else if name = str "digest_paper" then
    match st.paper with
    | none => .ok (st, errMustParse)
    | some paper =>
      match svc.digest_paper paper with
      | .error e => .error e
      | .ok digest =>
        .ok ({ st with digest := some digest },
          str "\x7b\"status\": \"success\", \"title\": " ++ jsonStr digest.title ++
          str ", \"tags\": " ++ jsonList digest.tags ++
          str ", \"key_contribution\": " ++
            jsonStr (digest.key_contribution.take 200) ++
          str ", \"connections\": " ++ jsonList digest.connections ++ str "\x7d")
  else if name = str "link_concepts" then
    match st.digest with
    | none => .ok (st, errMustDigest)
    | some digest =>
      match st.vault_notes with
      | none => .ok (st, errMustScan)
      | some vault_notes =>
        match link_concepts svc.linker_llm digest vault_notes with
        | .error e => .error e
        | .ok (linked_digest, linked) =>
          .ok ({ st with digest := some linked_digest,
                         linked_concepts := some linked },
            str "\x7b\"status\": \"success\", \"linked_concepts\": " ++
              jsonList linked ++
            str ", \"count\": " ++ jsonNat linked.length ++ str "\x7d")
  else if name = str "identify_gaps" then
    match st.digest with
    | none => .ok (st, errMustDigest)
    | some digest =>
      match st.paper with
      | none => .error (.keyError (str "paper"))
      | some paper =>
        match svc.identify_gaps digest paper.sections with
        | .error e => .error e
        | .ok gaps =>
          .ok ({ st with gaps := some gaps },
            str "\x7b\"status\": \"success\", \"open_questions\": " ++
              jsonNat gaps.open_questions.length ++
            str ", \"extension_ideas\": " ++
              jsonNat gaps.extension_ideas.length ++
            str ", \"methodological_gaps\": " ++
              jsonNat gaps.methodological_gaps.length ++ str "\x7d")
  else if name = str "write_note" then
    match st.digest with
    | none => .ok (st, errMustDigest)
    | some digest =>
      match st.paper with
      | none => .error (.keyError (str "paper"))
      | some paper =>
        match tool_input.output_dir with
        | none => .error (.keyError (str "output_dir"))
        | some output_dir =>
          match svc.render_note paper digest st.gaps output_dir
              st.linked_concepts with
          | .error e => .error e
          | .ok note_path =>
            .ok (st, str "\x7b\"status\": \"success\", \"note_path\": " ++
              jsonStr note_path ++ str "\x7d")
  else
    .ok (st, unknownToolResult name)

/-- The tool-execution phase of one turn of `run` in `agent.py`: execute all
requested tool invocations sequentially, threading the state, and collect
their result strings; an exception raised by any tool aborts the whole turn
(there is no try/except in the loop). -/
def execute_turn (svc : ExtServices) :
    List (Str × ToolInput) → AgentState →
    Except PyExc (AgentState × List Str)
  | [], st => .ok (st, [])
  | (name, tool_input) :: rest, st =>
    match execute_tool svc name tool_input st with
    | .error e => .error e
    | .ok (st1, result) =>
      match execute_turn svc rest st1 with
      | .error e => .error e
      | .ok (st2, results) => .ok (st2, result :: results)

/-! ### Lemmas about the error paths of `execute_tool` -/

lemma digest_tool_missing_paper (svc : ExtServices) (inp : ToolInput)
    (st : AgentState) (h : st.paper = none) :
    execute_tool svc (str "digest_paper") inp st = .ok (st, errMustParse) := by
  unfold execute_tool
  rw [if_neg (by decide), if_neg (by decide), if_pos (by decide), h]

lemma link_tool_missing_digest (svc : ExtServices) (inp : ToolInput)
    (st : AgentState) (h : st.digest = none) :
    execute_tool svc (str "link_concepts") inp st = .ok (st, errMustDigest) := by
  unfold execute_tool
  rw [if_neg (by decide), if_neg (by decide), if_neg (by decide),
    if_pos (by decide), h]

lemma link_tool_missing_vault (svc : ExtServices) (inp : ToolInput)
    (st : AgentState) (d : PaperDigest) (hd : st.digest = some d)
    (hv : st.vault_notes = none) :
    execute_tool svc (str "link_concepts") inp st = .ok (st, errMustScan) := by
  unfold execute_tool
  rw [if_neg (by decide), if_neg (by decide), if_neg (by decide),
    if_pos (by decide), hd, hv]

lemma gaps_tool_missing_digest (svc : ExtServices) (inp : ToolInput)
    (st : AgentState) (h : st.digest = none) :
    execute_tool svc (str "identify_gaps") inp st = .ok (st, errMustDigest) := by
  unfold execute_tool
  rw [if_neg (by decide), if_neg (by decide), if_neg (by decide),
    if_neg (by decide), if_pos (by decide), h]

lemma write_tool_missing_digest (svc : ExtServices) (inp : ToolInput)
    (st : AgentState) (h : st.digest = none) :
    execute_tool svc (str "write_note") inp st = .ok (st, errMustDigest) := by
  unfold execute_tool
  rw [if_neg (by decide), if_neg (by decide), if_neg (by decide),
    if_neg (by decide), if_neg (by decide), if_pos (by decide), h]

lemma unknown_tool_result (svc : ExtServices) (inp : ToolInput)
    (st : AgentState) (name : Str) (h : name ∉ toolNames) :
    execute_tool svc name inp st = .ok (st, unknownToolResult name) := by
  have h1 : ¬name = str "parse_paper" := fun heq => h (heq.symm ▸ (by decide))
  have h2 : ¬name = str "scan_vault" := fun heq => h (heq.symm ▸ (by decide))
  have h3 : ¬name = str "digest_paper" := fun heq => h (heq.symm ▸ (by decide))
  have h4 : ¬name = str "link_concepts" := fun heq => h (heq.symm ▸ (by decide))
  have h5 : ¬name = str "identify_gaps" := fun heq => h (heq.symm ▸ (by decide))
  have h6 : ¬name = str "write_note" := fun heq => h (heq.symm ▸ (by decide))
  unfold execute_tool
  rw [if_neg h1, if_neg h2, if_neg h3, if_neg h4, if_neg h5, if_neg h6]

/-- C3: requesting `digest_paper` before `parse_paper` has produced output
returns the error result naming `parse_paper` and leaves the state unchanged
(in particular the empty state stays empty), and every precondition-check
failure of any tool likewise returns an error result without mutating the
state. -/
theorem precondition_failure_no_mutation (svc : ExtServices) (inp : ToolInput)
    (st : AgentState) :
    (st.paper = none →
      execute_tool svc (str "digest_paper") inp st = .ok (st, errMustParse))
    ∧ execute_tool svc (str "digest_paper") inp AgentState.empty
        = .ok (AgentState.empty, errMustParse)
    ∧ containsSub errMustParse (str "parse_paper") = true
    ∧ (st.digest = none →
        execute_tool svc (str "link_concepts") inp st = .ok (st, errMustDigest))
    ∧ (∀ d, st.digest = some d → st.vault_notes = none →
        execute_tool svc (str "link_concepts") inp st = .ok (st, errMustScan))
    ∧ (st.digest = none →
        execute_tool svc (str "identify_gaps") inp st = .ok (st, errMustDigest))
    ∧ (st.digest = none →
        execute_tool svc (str "write_note") inp st = .ok (st, errMustDigest)) :=
  ⟨digest_tool_missing_paper svc inp st,
   digest_tool_missing_paper svc inp AgentState.empty rfl,
   by decide,
   link_tool_missing_digest svc inp st,
   fun d => link_tool_missing_vault svc inp st d,
   gaps_tool_missing_digest svc inp st,
   write_tool_missing_digest svc inp st⟩

/-- All external services fail with `anthropic.APIError`. -/
def svcFail : ExtServices where
  parse_paper := fun _ _ => .error .apiError
  scan_vault := fun _ => .error .apiError
  digest_paper := fun _ => .error .apiError
  linker_llm := fun _ => .error .apiError
  identify_gaps := fun _ _ => .error .apiError
  render_note := fun _ _ _ _ _ => .error .apiError

/-- An invocation with no parameters. -/
def noInput : ToolInput := ⟨none, none, none⟩

/-- A concrete parsed paper used in counterexamples and witnesses. -/
def samplePaper : PaperData :=
  { metadata := { title := str "T", authors := str "A", date := none,
                  arxiv_id := none, source_url := str "s" },
    sections := [], full_text := [], figures := [], tables := [],
    source := str "s" }

theorem precondition_failure_no_mutation_witness :
    execute_tool svcFail (str "digest_paper") noInput AgentState.empty
      = .ok (AgentState.empty, errMustParse) :=
  (precondition_failure_no_mutation svcFail noInput AgentState.empty).1 rfl

/-- C1 (counterexample): a failure raised inside a tool handler is not
converted into a structured error result — with `parse_paper` already done,
a `digest_paper` handler failure makes `execute_tool` propagate the
exception, and the exception aborts the whole turn of the run loop. -/
theorem handler_failure_aborts_counterexample :
    execute_tool svcFail (str "digest_paper") noInput
        { AgentState.empty with paper := some samplePaper } = .error .apiError
    ∧ execute_turn svcFail [(str "digest_paper", noInput)]
        { AgentState.empty with paper := some samplePaper } = .error .apiError :=
  ⟨rfl, rfl⟩

/-- C1 (amended): only the failures detected by `execute_tool` itself —
unknown tool names and unmet preconditions — produce structured error result
strings with the run loop continuing to the next invocation; an exception
raised inside a tool handler propagates out of `execute_tool` and aborts the
turn (and hence the run). -/
theorem execute_tool_error_paths (svc : ExtServices) (inp : ToolInput)
    (st : AgentState) (name : Str) (e : PyExc) :
    (name ∉ toolNames →
      execute_tool svc name inp st = .ok (st, unknownToolResult name))
    ∧ (∀ paper, st.paper = some paper → svc.digest_paper paper = .error e →
        execute_tool svc (str "digest_paper") inp st = .error e)
    ∧ (∀ source output_dir, inp.source = some source →
        inp.output_dir = some output_dir →
        svc.parse_paper source output_dir = .error e →
        execute_tool svc (str "parse_paper") inp st = .error e)
    ∧ (st.paper = none → ∀ rest,
        execute_turn svc ((str "digest_paper", inp) :: rest) st =
          match execute_turn svc rest st with
          | .error e2 => .error e2
          | .ok (st2, results) => .ok (st2, errMustParse :: results)) := by
  refine ⟨unknown_tool_result svc inp st name, ?_, ?_, ?_⟩
  · intro paper hp hfail
    unfold execute_tool
    rw [if_neg (by decide), if_neg (by decide), if_pos (by decide), hp]
    dsimp only
    rw [hfail]
  · intro source output_dir hs ho hfail
    unfold execute_tool
    rw [if_pos (by decide), hs]
    dsimp only
    rw [ho]
    dsimp only
    rw [hfail]
  · intro h rest
    have hexec := digest_tool_missing_paper svc inp st h
    simp only [execute_turn, hexec]

theorem execute_tool_error_paths_witness :
    execute_tool svcFail (str "bogus") noInput AgentState.empty
      = .ok (AgentState.empty, unknownToolResult (str "bogus"))
    ∧ execute_tool svcFail (str "parse_paper")
        ⟨some (str "src"), some (str "out"), none⟩ AgentState.empty
      = .error .apiError :=
  ⟨(execute_tool_error_paths svcFail noInput AgentState.empty
      (str "bogus") .apiError).1 (by decide),
   (execute_tool_error_paths svcFail
      ⟨some (str "src"), some (str "out"), none⟩ AgentState.empty
      (str "parse_paper") .apiError).2.2.1 (str "src") (str "out") rfl rfl rfl⟩

/-! ## `distill/parser.py` — the extraction result cache -/

/-- State of one file as seen by `_load_cache`: absent (`os.path.exists`
false), unreadable (`open`/read raises `IOError`), decodable text that is not
valid JSON (`json.load` raises `JSONDecodeError`), bytes that are not valid
UTF-8 (the text-mode read inside `json.load` raises `UnicodeDecodeError`),
or a stored structured value. -/
inductive CacheFile (α : Type) where
  | absent
  | unreadable
  | corrupt
  | undecodable
  | stored (data : α)
deriving DecidableEq

/-- An Azure layout-analysis paragraph (`result.paragraphs` entries): a role
tag (possibly `None`) and text content. -/
structure AzurePara where
  role : Option Str
  content : Str
deriving DecidableEq

/-- The Azure layout-analysis result consumed by `extract_content`; the
tables are modelled after `_table_to_markdown` as opaque markdown strings
(no claim concerns the cell-grid conversion). -/
structure AzureResult where
  paragraphs : List AzurePara
  tables : List Str
  content : Str
deriving DecidableEq

/-- The dict built by `extract_content`, with keys `sections`, `tables`,
`full_text`, `raw_paragraphs`. -/
structure ParsedContent where
  sections : List (Str × Str)
  tables : List Str
  full_text : Str
  raw_paragraphs : List (Option Str × Str)
deriving DecidableEq

/-- `CACHE_SUFFIX` from `parser.py`. -/
def CACHE_SUFFIX : Str := str ".cache.json"

/-- `_get_cache_path` from `parser.py`. -/
def get_cache_path (pdf_path : Str) : Str := pdf_path ++ CACHE_SUFFIX

/-- The raw open-and-parse step of `_load_cache` before exception handling:
`none` when the file does not exist, otherwise the raised exception or the
parsed value. -/
def read_json_file (fs : Str → CacheFile ParsedContent) (p : Str) :
    Option (Except PyExc ParsedContent) :=
  match fs p with
  | .absent => none
  | .unreadable => some (.error .ioError)
  | .corrupt => some (.error .jsonDecodeError)
  | .undecodable => some (.error .unicodeDecodeError)
  | .stored data => some (.ok data)

/-- `_load_cache` from `parser.py`: look up the cache record adjacent to the
source.  The `except (json.JSONDecodeError, IOError)` clause turns exactly
those two exception classes into a miss; any other exception raised while
reading — in particular the `UnicodeDecodeError` of a record whose bytes are
not valid UTF-8 — escapes to the caller, hence the `Except` result. -/
def load_cache (fs : Str → CacheFile ParsedContent) (pdf_path : Str) :
    Except PyExc (Option ParsedContent) :=
  match read_json_file fs (get_cache_path pdf_path) with
  | none => .ok none
  | some (.error .jsonDecodeError) => .ok none
  | some (.error .ioError) => .ok none
  | some (.error e) => .error e
  | some (.ok data) => .ok (some data)

/-- `_save_cache` from `parser.py`: overwrite the cache record adjacent to
the source.  The `except IOError` clause swallows a failed write, leaving
the old record in place: `write_ok` says whether the write raised. -/
def save_cache (write_ok : Bool) (fs : Str → CacheFile ParsedContent)
    (pdf_path : Str) (data : ParsedContent) : Str → CacheFile ParsedContent :=
  if write_ok then
    fun p => if p = get_cache_path pdf_path then .stored data else fs p
  else
    fs

/-- Python `sections[k]` lookup (first occurrence) on the insertion-ordered
model of the sections dict. -/
def sections_get (l : List (Str × Str)) (k : Str) : Option Str :=
  match l with
  | [] => none
  | (k2, v) :: rest => if k2 = k then some v else sections_get rest k

/-- Python `dict.setdefault(k, "")` on the insertion-ordered model. -/
def sections_setdefault (l : List (Str × Str)) (k : Str) : List (Str × Str) :=
  match sections_get l k with
  | some _ => l
  | none => l ++ [(k, [])]

/-- Python `sections[k] += v` on the insertion-ordered model. -/
def sections_add (l : List (Str × Str)) (k : Str) (v : Str) : List (Str × Str) :=
  match l with
  | [] => []
  | (k2, v2) :: rest =>
    if k2 = k then (k2, v2 ++ v) :: rest else (k2, v2) :: sections_add rest k v

/-- The paragraph-grouping loop of `extract_content`: headers/footers/page
numbers are skipped, section headings open a new (stripped) section, title
paragraphs accumulate under `"Title"`, and other paragraphs append to the
current section. -/
def group_sections : List AzurePara → Str → List (Str × Str) →
    List (Str × Str)
  | [], _, sections => sections
  | para :: rest, current, sections =>
    match para.role with
    | some role =>
      if role = str "pageHeader" ∨ role = str "pageFooter"
          ∨ role = str "pageNumber" then
        group_sections rest current sections
      else if role = str "sectionHeading" then
        let current2 := pyStrip para.content
        group_sections rest current2 (sections_setdefault sections current2)
      else if role = str "title" then
        let sections2 := sections_setdefault sections (str "Title")
        group_sections rest (str "Title")
          (sections_add sections2 (str "Title") (para.content ++ str "\n"))
      else
        group_sections rest current
          (sections_add (sections_setdefault sections current) current
            (para.content ++ str "\n\n"))
    | none =>
      group_sections rest current
        (sections_add (sections_setdefault sections current) current
          (para.content ++ str "\n\n"))

/-- The output dict of `extract_content` for a given Azure result. -/
def azure_output (result : AzureResult) : ParsedContent :=
  { sections := group_sections result.paragraphs (str "Abstract") [],
    tables := result.tables,
    full_text := result.content,
    raw_paragraphs := result.paragraphs.map (fun p => (p.role, p.content)) }

/-- `extract_content` from `parser.py`: consult the cache first (an
exception escaping `_load_cache` propagates); on a miss, require credentials
(`env_ok`), call the Azure service (the `azure` oracle), assemble the output
dict and persist it.  Returns the result together with the filesystem after
the call. -/
def extract_content (env_ok : Bool)
    (azure : Str → Except PyExc AzureResult) (write_ok : Bool)
    (fs : Str → CacheFile ParsedContent) (pdf_path : Str) :
    Except PyExc (ParsedContent × (Str → CacheFile ParsedContent)) :=
  match load_cache fs pdf_path with
  | .error e => .error e
  | .ok (some cached) => .ok (cached, fs)
  | .ok none =>
    if env_ok then
      match azure pdf_path with
      | .error e => .error e
      | .ok result =>
        .ok (azure_output result,
             save_cache write_ok fs pdf_path (azure_output result))
    else
      .error .envError

/-- C6 (counterexample): the claim fails on two paths.  A cache record whose
bytes are not valid UTF-8 is certainly not valid JSON, yet `json.load`
raises `UnicodeDecodeError`, which the `except (json.JSONDecodeError,
IOError)` clause does not catch: the exception escapes `_load_cache` and
aborts `extract_content` instead of being a miss.  And when the cache write
itself raises the swallowed `IOError`, saving then loading does not return
the saved structure (here: still a miss over a corrupt old record). -/
theorem cache_unicode_escape_counterexample :
    load_cache (fun _ => CacheFile.undecodable) (str "p.pdf")
      = .error .unicodeDecodeError
    ∧ extract_content true (fun _ => .ok ⟨[], [], []⟩) true
        (fun _ => CacheFile.undecodable) (str "p.pdf")
      = .error .unicodeDecodeError
    ∧ load_cache
        (save_cache false (fun _ => CacheFile.corrupt) (str "p.pdf")
          ⟨[], [], [], []⟩) (str "p.pdf") = .ok none :=
  ⟨rfl, rfl, rfl⟩

/-- C6 (amended): when the cache write succeeds, saving then loading for the
same source path yields an equal structure; a record whose read raises one
of the two caught exceptions — `IOError` (unreadable) or `JSONDecodeError`
(not valid JSON) — is a miss with no exception escaping, and on such a
record `extract_content` proceeds with extraction and overwrites it; but a
record whose bytes are not decodable raises `UnicodeDecodeError`, which
escapes `_load_cache` to the caller and aborts extraction. -/
theorem cache_roundtrip_and_caught_miss
    (fs : Str → CacheFile ParsedContent) (pdf_path : Str)
    (data : ParsedContent) (azure : Str → Except PyExc AzureResult) :
    load_cache (save_cache true fs pdf_path data) pdf_path = .ok (some data)
    ∧ (fs (get_cache_path pdf_path) = .corrupt →
        load_cache fs pdf_path = .ok none)
    ∧ (fs (get_cache_path pdf_path) = .unreadable →
        load_cache fs pdf_path = .ok none)
    ∧ (fs (get_cache_path pdf_path) = .undecodable →
        load_cache fs pdf_path = .error .unicodeDecodeError)
    ∧ (∀ result, fs (get_cache_path pdf_path) = .corrupt →
        azure pdf_path = .ok result →
        extract_content true azure true fs pdf_path =
          .ok (azure_output result,
               save_cache true fs pdf_path (azure_output result))) := by
  have hload : ∀ g : Str → CacheFile ParsedContent,
      g (get_cache_path pdf_path) = .corrupt →
      load_cache g pdf_path = .ok none := by
    intro g hg
    unfold load_cache read_json_file
    rw [hg]
  refine ⟨?_, hload fs, ?_, ?_, ?_⟩
  · have h : (save_cache true fs pdf_path data) (get_cache_path pdf_path)
        = .stored data := by
      unfold save_cache
      rw [if_pos rfl]
      exact if_pos rfl
    unfold load_cache read_json_file
    rw [h]
  · intro hg
    unfold load_cache read_json_file
    rw [hg]
  · intro hg
    unfold load_cache read_json_file
    rw [hg]
  · intro result hg ha
    unfold extract_content
    rw [hload fs hg]
    dsimp only
    rw [ha]
    rfl

theorem cache_roundtrip_witness :
    load_cache
      (save_cache true (fun _ => CacheFile.corrupt) (str "p.pdf")
        ⟨[], [], [], []⟩) (str "p.pdf") = .ok (some ⟨[], [], [], []⟩)
    ∧ load_cache (fun _ => CacheFile.corrupt) (str "p.pdf") = .ok none
    ∧ load_cache (fun _ => CacheFile.undecodable) (str "p.pdf")
      = .error .unicodeDecodeError :=
  ⟨(cache_roundtrip_and_caught_miss (fun _ => CacheFile.corrupt) (str "p.pdf")
      ⟨[], [], [], []⟩ (fun _ => .error .apiError)).1,
   (cache_roundtrip_and_caught_miss (fun _ => CacheFile.corrupt) (str "p.pdf")
      ⟨[], [], [], []⟩ (fun _ => .error .apiError)).2.1 rfl,
   (cache_roundtrip_and_caught_miss (fun _ => CacheFile.undecodable)
      (str "p.pdf") ⟨[], [], [], []⟩
      (fun _ => .error .apiError)).2.2.2.1 rfl⟩

end Distill
